import Mathlib

/-!
Verification of `src/cargo/util/process_builder.rs`: a builder for external
child processes with program, ordered arguments, working directory and a
sparse environment-override map, plus two execution modes.

OS-native strings (`OsString`) are modelled as lists of units, each either a
valid Unicode character or an invalid byte; `to_string_lossy` maps invalid
units to the replacement character U+FFFD. The `HashMap<String, Option<OsString>>`
is modelled as an association list with unique keys maintained by insertion.
The ambient process environment and the OS process-spawning facility are
external collaborators and enter as explicit parameters.
-/

set_option autoImplicit false

/-- One unit of an OS-native string: either a valid Unicode character or an
invalid (non-Unicode) byte. -/
inductive OsUnit where
  | valid (c : Char)
  | invalid (b : Nat)
  deriving DecidableEq, Repr

/-- An OS-native string (`std::ffi::OsString`): a sequence of units, not
necessarily valid Unicode. -/
abbrev OsString := List OsUnit

/-- Lossy conversion of one unit: invalid bytes become U+FFFD. -/
def OsUnit.lossy : OsUnit → Char
  | .valid c => c
  | .invalid _ => '�'

/-- `OsStr::to_string_lossy`: infallible, lossy conversion to text. -/
def to_string_lossy (s : OsString) : String :=
  String.mk (s.map OsUnit.lossy)

/-- Embed a plain Unicode string as an `OsString` (all units valid). -/
def osOf (s : String) : OsString := s.data.map OsUnit.valid

/-- The override map `HashMap<String, Option<OsString>>`: an association list
with at most one entry per key (maintained by `hmInsert`). -/
abbrev HMap := List (String × Option OsString)

/-- `HashMap::insert`: replace the entry for `k` if present, else add one. -/
def hmInsert (m : HMap) (k : String) (v : Option OsString) : HMap :=
  match m with
  | [] => [(k, v)]
  | e :: rest => if e.1 = k then (k, v) :: rest else e :: hmInsert rest k v

/-- `HashMap::get` (cloned): the value stored for `k`, if any. -/
def hmGet (m : HMap) (k : String) : Option (Option OsString) :=
  (m.find? (fun e => e.1 = k)).map Prod.snd

/-- The keys of the map are pairwise distinct — the `HashMap` representation
invariant, maintained by `hmInsert`. -/
def KeysNodup (m : HMap) : Prop := (m.map Prod.fst).Nodup

instance (m : HMap) : Decidable (KeysNodup m) := by
  unfold KeysNodup; infer_instance

/-- The ambient process environment (`std::env::var_os`), read at call time. -/
abbrev Ambient := String → Option OsString

/-- The `ProcessBuilder` struct: program, ordered args, sparse env-override
map, and working directory. -/
structure ProcessBuilder where
  program : OsString
  args : List OsString
  env : HMap
  cwd : OsString
  deriving DecidableEq, Repr

/-- `ProcessBuilder::arg`: append one value to the argument sequence. -/
def arg (b : ProcessBuilder) (a : OsString) : ProcessBuilder :=
  { b with args := b.args ++ [a] }

/-- `ProcessBuilder::args`: extend the argument sequence with `arguments`. -/
def args (b : ProcessBuilder) (arguments : List OsString) : ProcessBuilder :=
  { b with args := b.args ++ arguments }

/-- `ProcessBuilder::cwd`: replace the working directory. -/
def cwd (b : ProcessBuilder) (path : OsString) : ProcessBuilder :=
  { b with cwd := path }

/-- `ProcessBuilder::env`: insert `Some(val)` for `key`. -/
def env (b : ProcessBuilder) (key : String) (val : OsString) : ProcessBuilder :=
  { b with env := hmInsert b.env key (some val) }

/-- `ProcessBuilder::env_remove`: insert `None` for `key`. -/
def env_remove (b : ProcessBuilder) (key : String) : ProcessBuilder :=
  { b with env := hmInsert b.env key none }

/-- `ProcessBuilder::get_args`. -/
def get_args (b : ProcessBuilder) : List OsString := b.args

/-- `ProcessBuilder::get_cwd`. -/
def get_cwd (b : ProcessBuilder) : OsString := b.cwd

/-- `ProcessBuilder::get_env`: translated clause by clause from
`self.env.get(var).cloned().or_else(|| Some(env::var_os(var))).and_then(|s| s)`;
the ambient environment is a parameter, read at call time. -/
def get_env (b : ProcessBuilder) (amb : Ambient) (var : String) : Option OsString :=
  ((hmGet b.env var).orElse (fun _ => some (amb var))).bind id

/-- `ProcessBuilder::get_envs`: the full sparse override mapping. -/
def get_envs (b : ProcessBuilder) : HMap := b.env

/-- The Display rendering: backtick, lossy program, each arg preceded by a
space (lossy), closing backtick. -/
def displayString (b : ProcessBuilder) : String :=
  (b.args.foldl (fun acc a => acc ++ " " ++ to_string_lossy a)
    ("`" ++ to_string_lossy b.program)) ++ "`"

/-- `ProcessBuilder::debug_string`: lossy program, then each arg preceded by
a space (lossy), without delimiters. -/
def debug_string (b : ProcessBuilder) : String :=
  b.args.foldl (fun acc a => acc ++ " " ++ to_string_lossy a)
    (to_string_lossy b.program)

/-- Exit status of a terminated process (`std::process::ExitStatus`): the raw
wait status; zero means success, anything else a failed or abnormal exit. -/
structure ExitStatus where
  raw : Nat
  deriving DecidableEq, Repr

/-- `ExitStatus::success`. -/
def ExitStatus.success (s : ExitStatus) : Bool := s.raw == 0

/-- Captured result of a finished process (`std::process::Output`): exit
status plus raw stdout and stderr bytes. -/
structure Output where
  status : ExitStatus
  stdout : List Nat
  stderr : List Nat
  deriving DecidableEq, Repr

/-- An underlying OS error (`std::io::Error`), opaque but for identity. -/
structure OsError where
  code : Nat
  deriving DecidableEq, Repr

/-- The structured process error. Modelled from the spec: the body of
`util::process_error` is not under `src/`; per the error-output description
in the spec it records the human-readable message, the underlying OS error
when spawning failed, the exit status when the process ran, and the captured
output when capture was requested. -/
structure ProcessError where
  msg : String
  cause : Option OsError
  exit : Option ExitStatus
  output : Option Output
  deriving DecidableEq, Repr

/-- `util::process_error(msg, cause, status, output)` constructor, as used at
every call site in the source file under verification. -/
def process_error (msg : String) (cause : Option OsError)
    (status : Option ExitStatus) (output : Option Output) : ProcessError :=
  { msg := msg, cause := cause, exit := status, output := output }

/-- A native OS command descriptor (`std::process::Command`), black-boxed per
the spec: it records the program, the configured working directory, the
appended arguments, and the environment modifications made on it. -/
structure Command where
  programName : OsString
  cwdDir : Option OsString
  argv : List OsString
  envActions : HMap
  deriving DecidableEq, Repr

/-- `Command::new(program)`: no directory, no args, no env modifications. -/
def Command.new (program : OsString) : Command :=
  { programName := program, cwdDir := none, argv := [], envActions := [] }

/-- `Command::current_dir`. -/
def Command.current_dir (c : Command) (dir : OsString) : Command :=
  { c with cwdDir := some dir }

/-- `Command::arg`. -/
def Command.arg (c : Command) (a : OsString) : Command :=
  { c with argv := c.argv ++ [a] }

/-- `Command::env`: record a set/override of variable `k` to `v`. -/
def Command.env (c : Command) (k : String) (v : OsString) : Command :=
  { c with envActions := hmInsert c.envActions k (some v) }

/-- `Command::env_remove`: record a forced removal of variable `k`. -/
def Command.env_remove (c : Command) (k : String) : Command :=
  { c with envActions := hmInsert c.envActions k none }

/-- The environment the child would receive for variable `k`, per the
black-box description of the OS facility in the spec: a recorded set wins over ambient, a
recorded removal forces absence even if the ambient environment defines `k`,
and an untouched variable is inherited from the ambient environment. -/
def childEnvVar (c : Command) (amb : Ambient) (k : String) : Option OsString :=
  match hmGet c.envActions k with
  | some o => o
  | none => amb k

/-- Body of the env loop of `build_command`: apply one override-map entry to
the command — `Some` sets, `None` removes. -/
def applyEnvEntry (command : Command) (kv : String × Option OsString) : Command :=
  match kv.2 with
  | some v => command.env kv.1 v
  | none => command.env_remove kv.1

/-- `ProcessBuilder::build_command`: new command from the program, set the
working directory, append the args in order, then apply every entry of the
override map. -/
def build_command (b : ProcessBuilder) : Command :=
  let command := Command.new b.program
  let command := command.current_dir b.cwd
  let command := b.args.foldl Command.arg command
  b.env.foldl applyEnvEntry command

/-- The OS process-spawning facility, an external collaborator: given a
command descriptor, `spawnStatus` models `Command::status` (inherited
streams, wait, status) and `spawnOutput` models `Command::output` (captured
streams, wait, status plus captured bytes); each either fails to spawn with
an OS error or runs the process to termination. -/
structure World where
  spawnStatus : Command → Except OsError ExitStatus
  spawnOutput : Command → Except OsError Output

/-- `ProcessBuilder::exec`: build the command, spawn and wait via `status`;
classify spawn failure and non-success exit as in the source. -/
def exec (b : ProcessBuilder) (w : World) : Except ProcessError Unit :=
  let command := build_command b
  match w.spawnStatus command with
  | .error e =>
      .error (process_error ("Could not execute process `" ++ debug_string b ++ "`")
        (some e) none none)
  | .ok exit =>
      if exit.success then
        .ok ()
      else
        .error (process_error ("Process didn't exit successfully: `" ++ debug_string b ++ "`")
          none (some exit) none)

/-- `ProcessBuilder::exec_with_output`: build the command, spawn and wait via
`output`; classify as in the source, attaching the captured output on a
non-success exit. -/
def exec_with_output (b : ProcessBuilder) (w : World) : Except ProcessError Output :=
  let command := build_command b
  match w.spawnOutput command with
  | .error e =>
      .error (process_error ("Could not execute process `" ++ debug_string b ++ "`")
        (some e) none none)
  | .ok output =>
      if output.status.success then
        .ok output
      else
        .error (process_error ("Process didn't exit successfully: `" ++ debug_string b ++ "`")
          none (some output.status) (some output))

/-- `process(cmd)`: builder with the given program, no args, no overrides,
and the current working directory of the creating process; `env::current_dir()`
is an external read that may fail, passed in as `curDir`, and its failure is
propagated by `try!`. -/
def process (cmd : OsString) (curDir : Except OsError OsString) :
    Except OsError ProcessBuilder :=
  match curDir with
  | .error e => .error e
  | .ok d => .ok { program := cmd, args := [], cwd := d, env := [] }

/-- `exec` takes the builder by shared reference (`&self`); threading the
builder through the call pairs the result with the builder state after the
call, which a shared reference cannot have mutated. -/
def execThreaded (b : ProcessBuilder) (w : World) :
    Except ProcessError Unit × ProcessBuilder := (exec b w, b)

/-- `exec_with_output` takes the builder by shared reference (`&self`);
state-threaded version as for `execThreaded`. -/
def execWithOutputThreaded (b : ProcessBuilder) (w : World) :
    Except ProcessError Output × ProcessBuilder := (exec_with_output b w, b)

/-- `build_command` takes the builder by shared reference (`&self`);
state-threaded version as for `execThreaded`. -/
def buildCommandThreaded (b : ProcessBuilder) :
    Command × ProcessBuilder := (build_command b, b)

/-- A concrete builder: program `git`, args `status --short`. -/
def bGit : ProcessBuilder :=
  { program := osOf "git", args := [osOf "status", osOf "--short"],
    env := [], cwd := osOf "/" }

/-- A concrete builder with one set-override and one forced removal. -/
def bEnvTest : ProcessBuilder :=
  { program := osOf "sh", args := [],
    env := [("A", some (osOf "1")), ("B", none)], cwd := osOf "/" }

/-- A concrete ambient environment defining only `B`. -/
def ambB : Ambient := fun v => if v = "B" then some (osOf "foo") else none

/-- A concrete world in which every spawn fails with OS error 2. -/
def wSpawnFail : World :=
  { spawnStatus := fun _ => .error { code := 2 },
    spawnOutput := fun _ => .error { code := 2 } }

/-- A concrete captured output: success, stdout `hello` and a newline. -/
def outHello : Output :=
  { status := { raw := 0 }, stdout := [104, 101, 108, 108, 111, 10], stderr := [] }

/-- A concrete world in which every spawn succeeds with `outHello`. -/
def wEcho : World :=
  { spawnStatus := fun _ => .ok { raw := 0 },
    spawnOutput := fun _ => .ok outHello }

lemma hmGet_hmInsert_self (m : HMap) (k : String) (v : Option OsString) :
    hmGet (hmInsert m k v) k = some v := by
  induction m with
  | nil => simp [hmInsert, hmGet, List.find?]
  | cons e rest ih =>
    by_cases he : e.1 = k
    · simp [hmInsert, he, hmGet, List.find?]
    · simpa [hmInsert, he, hmGet, List.find?] using ih

lemma hmInsert_hmInsert (m : HMap) (k : String) (v1 v2 : Option OsString) :
    hmInsert (hmInsert m k v1) k v2 = hmInsert m k v2 := by
  induction m with
  | nil => simp [hmInsert]
  | cons e rest ih =>
    by_cases he : e.1 = k
    · simp [hmInsert, he]
    · simp [hmInsert, he, ih]

lemma hmInsert_append_of_not_mem (m : HMap) (k : String) (v : Option OsString)
    (h : k ∉ m.map Prod.fst) : hmInsert m k v = m ++ [(k, v)] := by
  induction m with
  | nil => rfl
  | cons e rest ih =>
    simp only [List.map_cons, List.mem_cons, not_or] at h
    have he : ¬ e.1 = k := fun hh => h.1 hh.symm
    simp [hmInsert, he, ih h.2]

lemma countP_key_eq_zero (m : HMap) (k : String) (h : k ∉ m.map Prod.fst) :
    m.countP (fun e => e.1 == k) = 0 := by
  rw [List.countP_eq_zero]
  intro e he hk
  exact h (List.mem_map.mpr ⟨e, he, (beq_iff_eq.mp hk)⟩)

lemma countP_hmInsert (m : HMap) (k : String) (v : Option OsString)
    (h : KeysNodup m) : (hmInsert m k v).countP (fun e => e.1 == k) = 1 := by
  induction m with
  | nil => simp [hmInsert, List.countP_cons]
  | cons e rest ih =>
    unfold KeysNodup at h
    simp only [List.map_cons, List.nodup_cons] at h
    by_cases he : e.1 = k
    · subst he
      simp [hmInsert, List.countP_cons, countP_key_eq_zero rest e.1 h.1]
    · simp [hmInsert, he, List.countP_cons, ih h.2]

lemma get_env_lookup (b : ProcessBuilder) (amb : Ambient) (var : String) :
    get_env b amb var =
      match hmGet b.env var with
      | some o => o
      | none => amb var := by
  unfold get_env
  cases hmGet b.env var with
  | none => rfl
  | some o => cases o <;> rfl

lemma build_command_eq (b : ProcessBuilder) :
    build_command b =
      b.env.foldl applyEnvEntry
        (b.args.foldl Command.arg ((Command.new b.program).current_dir b.cwd)) := rfl

lemma argfold_programName (l : List OsString) (c : Command) :
    (l.foldl Command.arg c).programName = c.programName := by
  induction l generalizing c with
  | nil => rfl
  | cons a l ih => exact ih (c.arg a)

lemma argfold_cwdDir (l : List OsString) (c : Command) :
    (l.foldl Command.arg c).cwdDir = c.cwdDir := by
  induction l generalizing c with
  | nil => rfl
  | cons a l ih => exact ih (c.arg a)

lemma argfold_envActions (l : List OsString) (c : Command) :
    (l.foldl Command.arg c).envActions = c.envActions := by
  induction l generalizing c with
  | nil => rfl
  | cons a l ih => exact ih (c.arg a)

lemma argfold_argv (l : List OsString) (c : Command) :
    (l.foldl Command.arg c).argv = c.argv ++ l := by
  induction l generalizing c with
  | nil => simp
  | cons a l ih =>
    rw [List.foldl_cons, ih (c.arg a)]
    simp [Command.arg]

lemma applyEnvEntry_programName (c : Command) (kv : String × Option OsString) :
    (applyEnvEntry c kv).programName = c.programName := by
  cases kv with
  | mk k v => cases v <;> rfl

lemma applyEnvEntry_cwdDir (c : Command) (kv : String × Option OsString) :
    (applyEnvEntry c kv).cwdDir = c.cwdDir := by
  cases kv with
  | mk k v => cases v <;> rfl

lemma applyEnvEntry_argv (c : Command) (kv : String × Option OsString) :
    (applyEnvEntry c kv).argv = c.argv := by
  cases kv with
  | mk k v => cases v <;> rfl

lemma applyEnvEntry_envActions (c : Command) (kv : String × Option OsString) :
    (applyEnvEntry c kv).envActions = hmInsert c.envActions kv.1 kv.2 := by
  cases kv with
  | mk k v => cases v <;> rfl

lemma envfold_programName (m : HMap) (c : Command) :
    (m.foldl applyEnvEntry c).programName = c.programName := by
  induction m generalizing c with
  | nil => rfl
  | cons kv m ih => rw [List.foldl_cons, ih, applyEnvEntry_programName]

lemma envfold_cwdDir (m : HMap) (c : Command) :
    (m.foldl applyEnvEntry c).cwdDir = c.cwdDir := by
  induction m generalizing c with
  | nil => rfl
  | cons kv m ih => rw [List.foldl_cons, ih, applyEnvEntry_cwdDir]

lemma envfold_argv (m : HMap) (c : Command) :
    (m.foldl applyEnvEntry c).argv = c.argv := by
  induction m generalizing c with
  | nil => rfl
  | cons kv m ih => rw [List.foldl_cons, ih, applyEnvEntry_argv]

lemma envfold_envActions (m : HMap) (c : Command) :
    (m.foldl applyEnvEntry c).envActions =
      m.foldl (fun a kv => hmInsert a kv.1 kv.2) c.envActions := by
  induction m generalizing c with
  | nil => rfl
  | cons kv m ih =>
    rw [List.foldl_cons, List.foldl_cons, ih, applyEnvEntry_envActions]

lemma foldl_hmInsert_eq_append (m : HMap) : ∀ acc : HMap, KeysNodup m →
    (∀ k, k ∈ acc.map Prod.fst → k ∉ m.map Prod.fst) →
    m.foldl (fun a kv => hmInsert a kv.1 kv.2) acc = acc ++ m := by
  induction m with
  | nil => intro acc _ _; simp
  | cons kv m ih =>
    intro acc hnd hdisj
    unfold KeysNodup at hnd
    simp only [List.map_cons, List.nodup_cons] at hnd
    have hk : kv.1 ∉ acc.map Prod.fst := by
      intro hmem
      exact hdisj kv.1 hmem (by simp)
    rw [List.foldl_cons, hmInsert_append_of_not_mem acc kv.1 kv.2 hk,
      ih (acc ++ [(kv.1, kv.2)]) hnd.2 ?_]
    · simp
    · intro k hmem
      simp only [List.map_append, List.mem_append, List.map_cons] at hmem
      rcases hmem with hmem | hmem
      · intro hmk
        exact hdisj k hmem (by simp [hmk])
      · simp only [List.map_cons, List.map_nil, List.mem_singleton] at hmem
        subst hmem
        exact hnd.1

lemma build_command_envActions (b : ProcessBuilder) (h : KeysNodup b.env) :
    (build_command b).envActions = b.env := by
  rw [build_command_eq, envfold_envActions, argfold_envActions]
  have hacc : ((Command.new b.program).current_dir b.cwd).envActions = [] := rfl
  rw [hacc, foldl_hmInsert_eq_append b.env [] h (by simp)]
  simp

/-- The space-separated, lossily converted argument tail of a rendering: each
argument contributes a space followed by its lossy text. -/
def renderArgs (l : List OsString) : String :=
  match l with
  | [] => ""
  | a :: rest => " " ++ to_string_lossy a ++ renderArgs rest

lemma foldl_render (l : List OsString) : ∀ i : String,
    l.foldl (fun acc a => acc ++ " " ++ to_string_lossy a) i = i ++ renderArgs l := by
  induction l with
  | nil => intro i; exact (String.append_empty i).symm
  | cons a l ih =>
    intro i
    rw [List.foldl_cons, ih (i ++ " " ++ to_string_lossy a)]
    simp only [renderArgs, String.append_assoc]

/-- One call in an arbitrary sequence of `arg` and `args` calls. -/
inductive ArgCall where
  | one (a : OsString)
  | many (vs : List OsString)

/-- The values an `ArgCall` supplies, in order. -/
def argCallValues : ArgCall → List OsString
  | .one a => [a]
  | .many vs => vs

/-- Apply one `arg` or `args` call to a builder. -/
def applyArgCall (b : ProcessBuilder) : ArgCall → ProcessBuilder
  | .one a => arg b a
  | .many vs => args b vs

/-- Apply a sequence of `arg`/`args` calls in order. -/
def applyArgCalls (b : ProcessBuilder) (cs : List ArgCall) : ProcessBuilder :=
  cs.foldl applyArgCall b

lemma applyArgCall_args (b : ProcessBuilder) (c : ArgCall) :
    (applyArgCall b c).args = b.args ++ argCallValues c := by
  cases c with
  | one a => rfl
  | many vs => rfl

lemma applyArgCall_program (b : ProcessBuilder) (c : ArgCall) :
    (applyArgCall b c).program = b.program := by
  cases c <;> rfl

lemma applyArgCall_env (b : ProcessBuilder) (c : ArgCall) :
    (applyArgCall b c).env = b.env := by
  cases c <;> rfl

lemma applyArgCall_cwd (b : ProcessBuilder) (c : ArgCall) :
    (applyArgCall b c).cwd = b.cwd := by
  cases c <;> rfl

/-- C1: for every builder state and every key, `get_env(key)` resolves via
override-then-ambient lookup: a `Some(v)` override entry yields `v`, a
forced-removal entry yields absent even if the ambient environment defines
the key, and an absent key yields the ambient value passed at call time
(absent if unset there), with no caching. -/
theorem get_env_override_then_ambient (b : ProcessBuilder) (amb : Ambient) (key : String) :
    get_env b amb key =
      match hmGet b.env key with
      | some (some v) => some v
      | some none => none
      | none => amb key := by
  rw [get_env_lookup]
  cases hmGet b.env key with
  | none => rfl
  | some o => cases o <;> rfl

/-- C6: for every sequence of `arg` and `args` calls, `get_args()` returns
the concatenation of all supplied values in the exact order applied, and
`args(values)` is equivalent to calling `arg` once per element. -/
theorem get_args_concatenation (b : ProcessBuilder) (cs : List ArgCall) (vs : List OsString) :
    get_args (applyArgCalls b cs) = get_args b ++ (cs.map argCallValues).flatten ∧
    args b vs = vs.foldl arg b := by
  constructor
  · induction cs generalizing b with
    | nil => simp [applyArgCalls, get_args]
    | cons c cs ih =>
      show get_args (applyArgCalls (applyArgCall b c) cs) = _
      rw [ih (applyArgCall b c)]
      simp [get_args, applyArgCall_args, List.append_assoc]
  · induction vs generalizing b with
    | nil => simp [args]
    | cons v vs ih =>
      rw [List.foldl_cons, ← ih (arg b v)]
      simp [args, arg, List.append_assoc]

/-- C7: applying `env(key, v2)` after `env(key, v1)` leaves only `v2` in
effect for that key: the override map equals the one produced by a single
`env(key, v2)`, holds exactly one entry for the key, that entry is
`Some(v2)`, and `get_env(key)` returns `v2`. -/
theorem env_last_write_wins (b : ProcessBuilder) (k : String) (v1 v2 : OsString)
    (h : KeysNodup b.env) (amb : Ambient) :
    (env (env b k v1) k v2).env = (env b k v2).env ∧
    hmGet (env (env b k v1) k v2).env k = some (some v2) ∧
    (env (env b k v1) k v2).env.countP (fun e => e.1 == k) = 1 ∧
    get_env (env (env b k v1) k v2) amb k = some v2 := by
  have hmap : (env (env b k v1) k v2).env = hmInsert b.env k (some v2) := by
    show hmInsert (hmInsert b.env k (some v1)) k (some v2) = _
    exact hmInsert_hmInsert b.env k (some v1) (some v2)
  refine ⟨hmap, ?_, ?_, ?_⟩
  · rw [hmap]
    exact hmGet_hmInsert_self b.env k (some v2)
  · rw [hmap]
    exact countP_hmInsert b.env k (some v2) h
  · rw [get_env_lookup, hmap, hmGet_hmInsert_self]

/-- C8: `process(program)` returns a builder with the given program, empty
argument list, empty override map, and the current working directory of the
creating process; if the working directory cannot be resolved the error is
propagated. -/
theorem process_construction (cmd : OsString) (curDir : Except OsError OsString) :
    process cmd curDir =
      match curDir with
      | .ok d => .ok { program := cmd, args := [], env := [], cwd := d }
      | .error e => .error e := by
  cases curDir <;> rfl

/-- Witness for C7: two `env` calls for key `K` on the concrete builder
`bGit` leave only `osOf "b"` in effect, under a concrete ambient
environment. -/
theorem env_last_write_wins_witness :
    KeysNodup bGit.env ∧
    ((env (env bGit "K" (osOf "a")) "K" (osOf "b")).env = (env bGit "K" (osOf "b")).env ∧
     hmGet (env (env bGit "K" (osOf "a")) "K" (osOf "b")).env "K" = some (some (osOf "b")) ∧
     (env (env bGit "K" (osOf "a")) "K" (osOf "b")).env.countP (fun e => e.1 == "K") = 1 ∧
     get_env (env (env bGit "K" (osOf "a")) "K" (osOf "b")) ambB "K" = some (osOf "b")) :=
  ⟨by decide, env_last_write_wins bGit "K" (osOf "a") (osOf "b") (by decide) ambB⟩

/-- C9: the Display rendering is the program followed by each argument in
order, space-separated, wrapped in backticks; it is total and falls back to
the replacement character U+FFFD on invalid (non-Unicode) units, and the
concrete builder for `git status --short` renders to the literal
backtick-wrapped text. -/
theorem display_rendering (b : ProcessBuilder) (u : Nat) :
    displayString b = "`" ++ to_string_lossy b.program ++ renderArgs b.args ++ "`" ∧
    displayString bGit = "`git status --short`" ∧
    to_string_lossy [OsUnit.invalid u] = "�" := by
  refine ⟨?_, ?_, ?_⟩
  · unfold displayString
    rw [foldl_render]
  · rfl
  · rfl

/-- C10: wrapping `debug_string()` in backticks, as the error format strings
of `exec` and `exec_with_output` do, yields exactly the Display rendering,
for every builder. -/
theorem display_matches_error_rendering (b : ProcessBuilder) :
    "`" ++ debug_string b ++ "`" = displayString b := by
  unfold displayString debug_string
  rw [foldl_render, foldl_render]
  simp only [String.append_assoc]

lemma exec_eq (b : ProcessBuilder) (w : World) :
    exec b w =
      match w.spawnStatus (build_command b) with
      | .error e =>
          .error (process_error ("Could not execute process `" ++ debug_string b ++ "`")
            (some e) none none)
      | .ok exit =>
          if exit.success then
            .ok ()
          else
            .error (process_error
              ("Process didn't exit successfully: `" ++ debug_string b ++ "`")
              none (some exit) none) := rfl

lemma exec_with_output_eq (b : ProcessBuilder) (w : World) :
    exec_with_output b w =
      match w.spawnOutput (build_command b) with
      | .error e =>
          .error (process_error ("Could not execute process `" ++ debug_string b ++ "`")
            (some e) none none)
      | .ok output =>
          if output.status.success then
            .ok output
          else
            .error (process_error
              ("Process didn't exit successfully: `" ++ debug_string b ++ "`")
              none (some output.status) (some output)) := rfl

/-- C2: `exec` returns success with no payload iff the process spawns and
exits with a success status; a spawn failure yields a `ProcessError`
wrapping the OS error with the "Could not execute process" message and no
status or output; a non-success exit yields a `ProcessError` with no OS
error, carrying the exit status, with the "Process didn't exit
successfully" message. -/
theorem exec_classification (b : ProcessBuilder) (w : World) :
    (exec b w = .ok () ↔
      ∃ s, w.spawnStatus (build_command b) = .ok s ∧ s.success = true) ∧
    (∀ e, w.spawnStatus (build_command b) = .error e →
      exec b w = .error (process_error
        ("Could not execute process `" ++ debug_string b ++ "`") (some e) none none)) ∧
    (∀ s, w.spawnStatus (build_command b) = .ok s → s.success = false →
      exec b w = .error (process_error
        ("Process didn't exit successfully: `" ++ debug_string b ++ "`")
        none (some s) none)) := by
  refine ⟨⟨?_, ?_⟩, ?_, ?_⟩
  · intro hok
    rw [exec_eq] at hok
    cases hs : w.spawnStatus (build_command b) with
    | error e =>
      rw [hs] at hok
      simp at hok
    | ok s =>
      rw [hs] at hok
      cases hsucc : s.success with
      | false => simp [hsucc] at hok
      | true => exact ⟨s, rfl, hsucc⟩
  · rintro ⟨s, hs, hsucc⟩
    rw [exec_eq, hs]
    simp [hsucc]
  · intro e he
    rw [exec_eq, he]
  · intro s hs hsucc
    rw [exec_eq, hs]
    simp [hsucc]

/-- Witness for C2: on the concrete builder `bGit` in the concrete world
`wSpawnFail`, where every spawn fails with OS error 2, `exec` reports the
spawn failure with the OS error attached and no status or output. -/
theorem exec_classification_witness :
    exec bGit wSpawnFail = .error (process_error
      ("Could not execute process `" ++ debug_string bGit ++ "`")
      (some { code := 2 }) none none) :=
  (exec_classification bGit wSpawnFail).2.1 { code := 2 } rfl

/-- C3: `exec_with_output` classifies spawn failure as `exec` does; a
success exit returns the captured output as the payload; a non-success exit
yields a `ProcessError` carrying both the exit status and the captured
output, with the same message pattern. -/
theorem exec_with_output_classification (b : ProcessBuilder) (w : World) :
    (∀ e, w.spawnOutput (build_command b) = .error e →
      exec_with_output b w = .error (process_error
        ("Could not execute process `" ++ debug_string b ++ "`") (some e) none none)) ∧
    (∀ o, w.spawnOutput (build_command b) = .ok o → o.status.success = true →
      exec_with_output b w = .ok o) ∧
    (∀ o, w.spawnOutput (build_command b) = .ok o → o.status.success = false →
      exec_with_output b w = .error (process_error
        ("Process didn't exit successfully: `" ++ debug_string b ++ "`")
        none (some o.status) (some o))) := by
  refine ⟨?_, ?_, ?_⟩
  · intro e he
    rw [exec_with_output_eq, he]
  · intro o ho hsucc
    rw [exec_with_output_eq, ho]
    simp [hsucc]
  · intro o ho hsucc
    rw [exec_with_output_eq, ho]
    simp [hsucc]

/-- Witness for C3: on the concrete builder `bGit` in the concrete world
`wEcho`, where the process succeeds with output `outHello`,
`exec_with_output` returns the captured output as the payload. -/
theorem exec_with_output_classification_witness :
    exec_with_output bGit wEcho = .ok outHello :=
  (exec_with_output_classification bGit wEcho).2.1 outHello rfl rfl

/-- C4: `build_command` produces a descriptor whose program is the builder's
program, whose working directory is the builder's cwd, whose arguments are
the builder's args in order, and in which every entry of the override map is
applied: a `Some(value)` entry sets that variable in the child environment
and a `None` entry force-removes it even if the ambient environment defines
it; an unmentioned variable is inherited. -/
theorem build_command_materialization (b : ProcessBuilder) (h : KeysNodup b.env)
    (amb : Ambient) (k : String) :
    (build_command b).programName = b.program ∧
    (build_command b).cwdDir = some b.cwd ∧
    (build_command b).argv = b.args ∧
    childEnvVar (build_command b) amb k =
      (match hmGet b.env k with
       | some (some v) => some v
       | some none => none
       | none => amb k) := by
  refine ⟨?_, ?_, ?_, ?_⟩
  · rw [build_command_eq, envfold_programName, argfold_programName]
    rfl
  · rw [build_command_eq, envfold_cwdDir, argfold_cwdDir]
    rfl
  · rw [build_command_eq, envfold_argv, argfold_argv]
    simp [Command.new, Command.current_dir]
  · unfold childEnvVar
    rw [build_command_envActions b h]
    cases hg : hmGet b.env k with
    | none => rfl
    | some o => cases o <;> rfl

/-- Witness for C4: on the concrete builder `bEnvTest`, whose override map
sets `A` and force-removes `B`, under the concrete ambient environment
`ambB` that defines `B`, the built command has the builder's program, cwd
and args, and the child sees `B` as absent. -/
theorem build_command_materialization_witness :
    KeysNodup bEnvTest.env ∧
    ((build_command bEnvTest).programName = bEnvTest.program ∧
     (build_command bEnvTest).cwdDir = some bEnvTest.cwd ∧
     (build_command bEnvTest).argv = bEnvTest.args ∧
     childEnvVar (build_command bEnvTest) ambB "B" = none) :=
  ⟨by decide, build_command_materialization bEnvTest (by decide) ambB "B"⟩

/-- C5: `build_command`, `exec`, and `exec_with_output` take the builder by
shared reference and leave its program, args, cwd and env override map
unchanged; two `build_command` calls with no intervening mutation yield
identical descriptors. -/
theorem builder_unchanged_by_terminal_ops (b : ProcessBuilder) (w : World) :
    (execThreaded b w).2 = b ∧
    (execWithOutputThreaded b w).2 = b ∧
    (buildCommandThreaded b).2 = b ∧
    ((execThreaded b w).2.program = b.program ∧ (execThreaded b w).2.args = b.args ∧
     (execThreaded b w).2.cwd = b.cwd ∧ (execThreaded b w).2.env = b.env) ∧
    ((execWithOutputThreaded b w).2.program = b.program ∧
     (execWithOutputThreaded b w).2.args = b.args ∧
     (execWithOutputThreaded b w).2.cwd = b.cwd ∧
     (execWithOutputThreaded b w).2.env = b.env) ∧
    (buildCommandThreaded ((buildCommandThreaded b).2)).1 = (buildCommandThreaded b).1 :=
  ⟨rfl, rfl, rfl, ⟨rfl, rfl, rfl, rfl⟩, ⟨rfl, rfl, rfl, rfl⟩, rfl⟩
